import Mathlib

/-!
Verification development for the request-processing core of the pingap
reverse proxy: the directive resolution engine (`http_extra/http_header.rs`),
the TinyUfo-backed cache store wrapper (`cache/tiny.rs`) and the stats
plugin (`plugin/stats.rs`).

Machine strings are modelled as Lean `String`s; the byte-level validity
checks of the `http` crate (`HeaderName::from_str`, `HeaderValue::from_str`,
`HeaderValue::to_str`) are modelled at the character level, which agrees
with the byte-level checks on the UTF-8 encoding (every byte of a multi-byte
character is `>= 0x80`, hence `>= 32` and `≠ 127`).
-/

set_option autoImplicit false

namespace Pingap

/-- `listIsPfx p s` is true when the character list `p` is a prefix of `s`
(the model of Rust's byte-slice `starts_with`). -/
def listIsPfx : List Char → List Char → Bool
  | [], _ => true
  | _ :: _, [] => false
  | c :: cs, d :: ds => c = d && listIsPfx cs ds

/-- Model of `buf.starts_with(p)` on the bytes of a header value. -/
def strStartsWith (s p : String) : Bool :=
  listIsPfx p.toList s.toList

/-- ASCII lowercasing of one character (the case folding the `http` crate
applies to header names). -/
def lowerChar (c : Char) : Char :=
  if 65 ≤ c.toNat && c.toNat ≤ 90 then Char.ofNat (c.toNat + 32) else c

/-- ASCII lowercasing of a string. -/
def toLowerStr (s : String) : String :=
  (s.toList.map lowerChar).asString

/-- The Unicode White_Space property, the character set `char::is_whitespace`
(and hence `str::trim`) recognises: U+0009..U+000D, U+0020, U+0085, U+00A0,
U+1680, U+2000..U+200A, U+2028, U+2029, U+202F, U+205F and U+3000. -/
def isWhite (c : Char) : Bool :=
  (9 ≤ c.toNat && c.toNat ≤ 13) || c.toNat = 32 || c.toNat = 133 ||
    c.toNat = 160 || c.toNat = 5760 ||
    (8192 ≤ c.toNat && c.toNat ≤ 8202) || c.toNat = 8232 || c.toNat = 8233 ||
    c.toNat = 8239 || c.toNat = 8287 || c.toNat = 12288

/-- Model of `str::trim`: strip leading and trailing Unicode whitespace. -/
def trimStr (s : String) : String :=
  (((s.toList.dropWhile isWhite).reverse.dropWhile isWhite).reverse).asString

/-- Model of byte-slicing `&buf[n..]` of an ASCII-prefixed header value. -/
def strDrop (s : String) (n : Nat) : String :=
  (s.toList.drop n).asString

/-- Character-level model of the `http` crate's header-value byte validity:
a byte is legal in a `HeaderValue` iff it is `>= 32` and `≠ 127`, or is TAB. -/
def validHeaderChar (c : Char) : Bool :=
  c.toNat = 9 || (32 ≤ c.toNat && c.toNat != 127)

/-- Character-level model of the `http` crate's visible-ASCII check used by
`HeaderValue::to_str`: a byte passes iff it is in `32..126` or is TAB. -/
def visibleAsciiChar (c : Char) : Bool :=
  c.toNat = 9 || (32 ≤ c.toNat && c.toNat < 127)

/-- Model of `HeaderValue::to_str().unwrap_or_default()`: the string itself
when every character is visible ASCII, the empty string otherwise. -/
def toStrOrDefault (v : String) : String :=
  if v.toList.all visibleAsciiChar then v else ""

/-- Character-level model of the `http` crate's header-name token table:
lowercase and uppercase letters, digits, and the RFC 7230 token specials. -/
def isTokenChar (c : Char) : Bool :=
  c.isAlphanum ||
    [33, 35, 36, 37, 38, 39, 42, 43, 45, 46, 94, 95, 96, 124, 126].contains c.toNat

/-- Model of `HeaderName::from_str`: succeeds on a non-empty string of token
characters, normalising to lowercase (as the `http` crate does). -/
def headerNameFromStr (s : String) : Option String :=
  if s ≠ "" && s.toList.all isTokenChar then some (toLowerStr s) else none

/-- Model of `HeaderValue::from_str` (and of `HeaderValue::from_bytes`, which
performs the same byte check): succeeds iff every character is legal. -/
def headerValueFromStr (s : String) : Option String :=
  if s.toList.all validHeaderChar then some s else none

/-- The error type of `http_extra/http_header.rs` (`Error`): each variant
records the offending part of the directive (the `value` field of the
corresponding snafu variant; the wrapped `http` crate error is not modelled). -/
inductive HeaderError where
  | invalidHeaderValue (value : String)
  | invalidHeaderName (value : String)
deriving DecidableEq, Repr

/-- An `HttpHeader = (HeaderName, HeaderValue)` pair, both modelled as strings
(the name in its lowercase normal form). -/
def HttpHeader := String × String
deriving DecidableEq, Repr

/-- Model of Rust's `str::split_once(c)`: the parts strictly before and after
the first occurrence of `c`, or `none` when `c` does not occur. -/
def splitOnceList (sep : Char) : List Char → Option (List Char × List Char)
  | [] => none
  | c :: rest =>
    if c = sep then some ([], rest)
    else (splitOnceList sep rest).map (fun p => (c :: p.1, p.2))

/-- String version of `str::split_once`. -/
def splitOnce (s : String) (sep : Char) : Option (String × String) :=
  (splitOnceList sep s.toList).map (fun p => (p.1.asString, p.2.asString))

/-- Embedding of `convert_header` (`http_extra/http_header.rs`): split the raw
directive on the first colon, trim both halves, validate the name as a header
token and the value as a header value; a colonless line yields `ok none`. -/
def convert_header (value : String) : Except HeaderError (Option HttpHeader) :=
  match splitOnce value ':' with
  | some (k, v) =>
    let k := trimStr k
    let v := trimStr v
    match headerNameFromStr k with
    | none => .error (.invalidHeaderName k)
    | some name =>
      match headerValueFromStr v with
      | none => .error (.invalidHeaderValue v)
      | some hv => .ok (some (name, hv))
  | none => .ok none

/-- Embedding of `convert_headers` (`http_extra/http_header.rs`): fold
`convert_header` over the list, skipping `ok none` lines, keeping parsed
pairs in input order, and propagating the first configuration error. -/
def convert_headers (header_values : List String) : Except HeaderError (List HttpHeader) :=
  match header_values with
  | [] => .ok []
  | h :: rest =>
    match convert_header h with
    | .error e => .error e
    | .ok none => convert_headers rest
    | .ok (some hh) => (convert_headers rest).map (fun arr => hh :: arr)

/-- The per-request `State` (`state.rs`, as used by `http_header.rs` and
`stats.rs`): connection-level facts are `Option`-valued ("not yet known" is
distinguishable from "known"), the upstream address defaults to the empty
string, and the named-attribute namespace is an association list. -/
structure State where
  tls_version : Option String := none
  remote_addr : Option String := none
  remote_port : Option Nat := none
  server_addr : Option String := none
  server_port : Option Nat := none
  upstream_address : String := ""
  connection_id : Nat := 0
  location_processing : Int := 0
  location_accepted : Nat := 0
  namedAttributes : List (String × String) := []
deriving DecidableEq, Repr

/-- Modelled from the spec: `State::append_value` (in `state.rs`, not under
`src/`) appends the string form of the named context attribute addressed by
`key` to the buffer, appending nothing when the attribute is absent
("absence must resolve to omit, never to an empty/garbage value"). -/
def State.append_value (ctx : State) (buf : String) (key : String) : String :=
  buf ++ (((ctx.namedAttributes.find? (fun p => p.1 = key)).map (·.2)).getD "")

/-- The inbound request session, as consumed by `convert_header_value` and
`Stats::handle_request`: the effective host (modelled from the spec:
`util::get_host`, in `util.rs`, not under `src/`, reads the request's
authority/Host), the header map (an association list, names matched
case-insensitively as in the `http` crate) and the URI path. -/
structure Session where
  host : Option String := none
  headers : List (String × String) := []
  uri_path : String := ""
deriving DecidableEq, Repr

/-- Model of `session.get_header(name)`: first header whose name matches
case-insensitively. -/
def Session.get_header (s : Session) (k : String) : Option String :=
  ((s.headers.find? (fun p => toLowerStr p.1 = toLowerStr k)).map (·.2))

/-- Process-wide facts read by the resolution engine (modelled from the spec:
`get_hostname` in `state.rs` and `std::env::var`, neither under `src/`):
the proxy's own hostname and the process environment as an association list. -/
structure Sys where
  hostname : String := "localhost"
  env : List (String × String) := []
deriving DecidableEq, Repr

/-- Model of `std::env::var(k)`. -/
def Sys.lookupEnv (s : Sys) (k : String) : Option String :=
  ((s.env.find? (fun p => p.1 = k)).map (·.2))

/-- Embedding of `convert_header_value` (`http_extra/http_header.rs`):
exact-tag match against the fixed vocabulary, then the `$http_` prefix,
then `$` (environment variable), then `:` (context attribute), else `none`.
Every branch that materialises a string goes through the
`HeaderValue::from_str` validity check, exactly as the source does. -/
def convert_header_value (value : String) (session : Session) (sys : Sys)
    (ctx : State) : Option String :=
  if value = "$host" then
    match session.host with
    | some h => headerValueFromStr h
    | none => none
  else if value = "$scheme" then
    if ctx.tls_version.isSome then some "https" else some "http"
  else if value = "$hostname" then
    headerValueFromStr sys.hostname
  else if value = "$remote_addr" then
    match ctx.remote_addr with
    | some remote_addr => headerValueFromStr remote_addr
    | none => none
  else if value = "$remote_port" then
    match ctx.remote_port with
    | some remote_port => headerValueFromStr (toString remote_port)
    | none => none
  else if value = "$server_addr" then
    match ctx.server_addr with
    | some server_addr => headerValueFromStr server_addr
    | none => none
  else if value = "$server_port" then
    match ctx.server_port with
    | some server_port => headerValueFromStr (toString server_port)
    | none => none
  else if value = "$upstream_addr" then
    if ctx.upstream_address ≠ "" then headerValueFromStr ctx.upstream_address
    else none
  else if value = "$proxy_add_x_forwarded_for" then
    match ctx.remote_addr with
    | some remote_addr =>
      let v :=
        match session.get_header "X-Forwarded-For" with
        | some existing => toStrOrDefault existing ++ ", " ++ remote_addr
        | none => remote_addr
      headerValueFromStr v
    | none => none
  else if strStartsWith value "$http_" then
    session.get_header (strDrop value 6)
  else if strStartsWith value "$" then
    match sys.lookupEnv (strDrop value 1) with
    | some v => headerValueFromStr v
    | none => none
  else if strStartsWith value ":" then
    let v := ctx.append_value "" (strDrop value 1)
    if v ≠ "" then headerValueFromStr v else none
  else
    none

/-- `CacheObject` (`cache/http_cache.rs`): an opaque serialized cached
response; only its identity matters to the store wrapper, so it is modelled
as its serialized bytes. -/
structure CacheObject where
  data : String := ""
deriving DecidableEq, Repr

/-- One resident cache entry: key, object and its caller-supplied weight. -/
def CacheEntry := String × CacheObject × Nat
deriving DecidableEq, Repr

/-- Total resident weight of a list of cache entries. -/
def totalWeight (l : List CacheEntry) : Nat :=
  l.foldl (fun acc e => acc + e.2.2) 0

/-- Modelled from the spec: the external `tinyufo::TinyUfo` store (a
dependency, not part of this repository). It is constructed with a total
weight capacity and an estimated size; these are the fields `tiny.rs`
forwards to `TinyUfo::new`. -/
structure TinyUfo where
  total_weight_limit : Nat
  estimated_size : Nat
  entries : List CacheEntry := []
deriving DecidableEq, Repr

/-- Model of `TinyUfo::new(total_weight_limit, estimated_size)`. -/
def TinyUfo.new (total_weight_limit estimated_size : Nat) : TinyUfo :=
  { total_weight_limit := total_weight_limit, estimated_size := estimated_size }

/-- Drop entries from the front of a cold-first entry list until the
resident weight fits under the limit. -/
def dropColdest (limit : Nat) : List CacheEntry → List CacheEntry
  | [] => []
  | e :: rest =>
    if totalWeight (e :: rest) ≤ limit then e :: rest else dropColdest limit rest

/-- Evict entries from the cold end of a newest-first entry list until the
resident weight fits under the limit. -/
def evictUntil (limit : Nat) (l : List CacheEntry) : List CacheEntry :=
  (dropColdest limit l.reverse).reverse

/-- Modelled from the spec: `TinyUfo::put` admission — "insertion of an item
whose weight alone exceeds capacity is rejected"; an admitted item replaces
any entry with the same key and eviction keeps the resident weight under the
capacity (the frequency-based promotion policy is out of scope here). -/
def TinyUfo.put (c : TinyUfo) (key : String) (data : CacheObject) (weight : Nat) : TinyUfo :=
  if c.total_weight_limit < weight then c
  else
    { c with
      entries :=
        evictUntil c.total_weight_limit
          ((key, data, weight) :: c.entries.filter (fun e => e.1 ≠ key)) }

/-- Modelled from the spec: `TinyUfo::get` — lookup by key (the
frequency-estimate side effect is not observable through the wrapper's
interface modelled here). -/
def TinyUfo.get (c : TinyUfo) (key : String) : Option CacheObject :=
  ((c.entries.find? (fun e => e.1 = key)).map (fun e => e.2.1))

/-- `TinyUfoCache` (`cache/tiny.rs`): the `HttpCacheStorage` backend wrapping
a `TinyUfo`. -/
structure TinyUfoCache where
  cache : TinyUfo
deriving DecidableEq, Repr

/-- Embedding of `TinyUfoCache::new`. -/
def TinyUfoCache.new (total_weight_limit estimated_size : Nat) : TinyUfoCache :=
  { cache := TinyUfo.new total_weight_limit estimated_size }

/-- Embedding of `new_tiny_ufo_cache` (`cache/tiny.rs`). -/
def new_tiny_ufo_cache (total_weight_limit estimated_size : Nat) : TinyUfoCache :=
  TinyUfoCache.new total_weight_limit estimated_size

/-- Embedding of `HttpCacheStorage::get` for `TinyUfoCache`. -/
def TinyUfoCache.get (c : TinyUfoCache) (key : String) : Option CacheObject :=
  c.cache.get key

/-- Embedding of `HttpCacheStorage::put` for `TinyUfoCache` (`cache/tiny.rs`
lines 44-52): `self.cache.put(key, data, weight); Ok(())` — the interior
mutation is made explicit by returning the updated store inside `ok`.
The error type is the cache `Error` of `cache/mod.rs`, modelled as a
message string. -/
def TinyUfoCache.put (c : TinyUfoCache) (key : String) (data : CacheObject)
    (weight : Nat) : Except String TinyUfoCache :=
  .ok { cache := c.cache.put key data weight }

/-- `PluginStep` — modelled from the spec (`config` module, not under
`src/`): "a small closed enumeration of lifecycle points (at minimum:
before routing [Request], after upstream selection [ProxyUpstream], and on
response [Response])". -/
inductive PluginStep where
  | request
  | proxyUpstream
  | response
deriving DecidableEq, BEq, Repr

/-- The configuration-file name of a step (as written in the `step` field,
e.g. `step = "response"` in the stats plugin's tests). -/
def PluginStep.confName : PluginStep → String
  | .request => "request"
  | .proxyUpstream => "proxy_upstream"
  | .response => "response"

/-- `PluginConf` — modelled from the spec (`config` module, not under
`src/`): "a named block per plugin instance with a `step` field selecting
the lifecycle point (defaulting to a plugin-specific default step if
omitted) and plugin-specific fields (e.g., a `path` field)". -/
structure PluginConf where
  step : Option PluginStep := none
  path : String := ""
deriving DecidableEq, Repr

/-- Modelled from the spec: `get_step_conf` (`plugin/mod.rs`, not under
`src/`) reads the configured step, defaulting to the plugin default step
(`Request`; the stats tests construct the plugin with no `step` field and
obtain a plugin accepted at the request step). -/
def get_step_conf (conf : PluginConf) : PluginStep :=
  conf.step.getD .request

/-- Modelled from the spec: `get_str_conf(conf, "path")` (`plugin/mod.rs`,
not under `src/`) reads the string field of that name. -/
def get_str_conf (conf : PluginConf) : String :=
  conf.path

/-- Modelled from the spec: `get_hash_key` (`plugin/mod.rs`, not under
`src/`) is a content-derived fingerprint of the configuration, "not a
cryptographic or uniqueness guarantee"; modelled as a serialization. -/
def get_hash_key (conf : PluginConf) : String :=
  (match conf.step with
    | none => "-"
    | some s => s.confName) ++ ":" ++ conf.path

/-- The plugin `Error::Invalid` variant (`plugin/mod.rs`, shape fixed by the
constructor call in `stats.rs` lines 73-76): a category and a message. -/
structure PluginError where
  category : String
  message : String
deriving DecidableEq, Repr

/-- The display form of `Error::Invalid`, fixed by the stats test:
`"Plugin stats invalid, message: ..."`. -/
def PluginError.render (e : PluginError) : String :=
  "Plugin " ++ e.category ++ " invalid, message: " ++ e.message

/-- `sub` occurs as a contiguous run inside `s` (character lists). -/
def listOccursIn : List Char → List Char → Bool
  | sub, [] => sub.isEmpty
  | sub, d :: ds => listIsPfx sub (d :: ds) || listOccursIn sub ds

/-- `sub` occurs as a contiguous substring of `s`. -/
def strContains (s sub : String) : Bool :=
  listOccursIn sub.toList s.toList

/-- The `Stats` plugin (`plugin/stats.rs` lines 53-57). -/
structure Stats where
  path : String
  plugin_step : PluginStep
  hash_value : String
deriving DecidableEq, Repr

/-- Embedding of `TryFrom<&PluginConf> for Stats` (`plugin/stats.rs` lines
59-80): build the params, then reject any configured step outside
`[Request, ProxyUpstream]` with `Error::Invalid` naming the stats category. -/
def Stats.tryFrom (conf : PluginConf) : Except PluginError Stats :=
  let hash_value := get_hash_key conf
  let step := get_step_conf conf
  let params : Stats :=
    { hash_value := hash_value, plugin_step := step, path := get_str_conf conf }
  if ([PluginStep.request, PluginStep.proxyUpstream].contains params.plugin_step) = false then
    .error
      { category := "stats",
        message := "Stats plugin should be executed at request or proxy upstream step" }
  else
    .ok params

/-- Embedding of `Stats::new` (`plugin/stats.rs` lines 83-86). -/
def Stats.new (params : PluginConf) : Except PluginError Stats :=
  Stats.tryFrom params

/-- Embedding of `Plugin::hash_key` for `Stats`. -/
def Stats.hash_key (s : Stats) : String :=
  s.hash_value

/-- The process-system snapshot (`get_process_system_info`, `state.rs`). -/
structure SystemInfo where
  memory_mb : Nat := 0
  memory : String := ""
  arch : String := ""
  cpus : Nat := 0
  physical_cpus : Nat := 0
  total_memory : String := ""
  used_memory : String := ""
  threads : Nat := 0
  fd_count : Nat := 0
  tcp_count : Nat := 0
  tcp6_count : Nat := 0
deriving DecidableEq, Repr

/-- Modelled from the spec: the process-wide read-only snapshot consumed by
the stats plugin (`get_hostname`, `get_processing_accepted`,
`get_start_time`, `util::now`, version accessors — `state.rs`/`util.rs`,
not under `src/`), "an explicitly-passed read-only snapshot/accessor". -/
structure ProcessState where
  hostname : String := "localhost"
  start_time : Nat := 0
  now_secs : Nat := 0
  processing : Int := 0
  accepted : Nat := 0
  pkg_version : String := ""
  rustc_version : String := ""
  info : SystemInfo := {}
deriving DecidableEq, Repr

/-- Modelled from the spec: the human-readable elapsed-time string produced
by `humantime::Duration` for the uptime field. -/
def formatUptime (secs : Nat) : String :=
  toString secs ++ "s"

/-- The `ServerStats` JSON body (`plugin/stats.rs` lines 30-52). -/
structure ServerStats where
  processing : Int
  accepted : Nat
  location_processing : Int
  location_accepted : Nat
  hostname : String
  version : String
  rustc_version : String
  start_time : Nat
  uptime : String
  memory_mb : Nat
  memory : String
  arch : String
  cpus : Nat
  physical_cpus : Nat
  total_memory : String
  used_memory : String
  threads : Nat
  fd_count : Nat
  tcp_count : Nat
  tcp6_count : Nat
deriving DecidableEq, Repr

/-- An `HttpResponse` as produced by the stats plugin: the JSON-serialized
`ServerStats` (serialization of this struct cannot fail, so the
`unknown_error` fallback of `stats.rs` line 133 is unreachable and the body
is kept structured). -/
structure HttpResponse where
  body : ServerStats
deriving DecidableEq, Repr

/-- Embedding of `Plugin::handle_request` for `Stats` (`plugin/stats.rs`
lines 96-139). The `&mut State` is made explicit by returning the state
alongside the `pingora::Result<Option<HttpResponse>>` (error type modelled
as a message string; this body never constructs an error). -/
def Stats.handle_request (p : Stats) (step : PluginStep) (session : Session)
    (ps : ProcessState) (ctx : State) :
    Except String (Option HttpResponse) × State :=
  if step ≠ p.plugin_step then
    (.ok none, ctx)
  else if session.uri_path = p.path then
    let uptime := formatUptime (ps.now_secs - ps.start_time)
    let resp : HttpResponse :=
      { body :=
          { accepted := ps.accepted
            processing := ps.processing
            location_processing := ctx.location_processing
            location_accepted := ctx.location_accepted
            hostname := ps.hostname
            version := ps.pkg_version
            rustc_version := ps.rustc_version
            start_time := ps.start_time
            uptime := uptime
            memory_mb := ps.info.memory_mb
            memory := ps.info.memory
            arch := ps.info.arch
            cpus := ps.info.cpus
            physical_cpus := ps.info.physical_cpus
            total_memory := ps.info.total_memory
            used_memory := ps.info.used_memory
            threads := ps.info.threads
            fd_count := ps.info.fd_count
            tcp_count := ps.info.tcp_count
            tcp6_count := ps.info.tcp6_count } }
    (.ok (some resp), ctx)
  else
    (.ok none, ctx)

/-! ### Auxiliary definitions and concrete fixtures -/

/-- `Except.isOk` as a plain boolean function. -/
def exceptIsOk {ε α : Type _} : Except ε α → Bool
  | .ok _ => true
  | .error _ => false

/-- The success value of an `Except`, if any. -/
def exceptToOption {ε α : Type _} : Except ε α → Option α
  | .ok a => some a
  | .error _ => none

/-- The fixed vocabulary of exactly matched connection/request tags. -/
def exactTags : List String :=
  ["$host", "$scheme", "$hostname", "$remote_addr", "$remote_port",
   "$server_addr", "$server_port", "$upstream_addr", "$proxy_add_x_forwarded_for"]

/-- A concrete session mirroring the one built in the source's tests. -/
def sessionEx : Session :=
  { host := some "pingap.io",
    headers := [("X-Forwarded-For", "1.1.1.1, 2.2.2.2"), ("Origin", "https://github.com")],
    uri_path := "/vicanso/pingap" }

/-- A concrete per-request state mirroring the source's `default_state` test
fixture. -/
def stateEx : State :=
  { tls_version := some "tls1.3", remote_addr := some "10.1.1.1",
    remote_port := some 6000, server_addr := some "10.1.1.2",
    server_port := some 6001, upstream_address := "10.1.1.3:4123",
    connection_id := 102, namedAttributes := [("connection_id", "102")] }

/-- The `Error::Invalid` value produced by `Stats::try_from` for a
disallowed step. -/
def statsInvalidError : PluginError :=
  { category := "stats",
    message := "Stats plugin should be executed at request or proxy upstream step" }

/-- A concrete stats plugin accepted at the request step. -/
def statsEx : Stats :=
  { path := "/stats", plugin_step := PluginStep.request, hash_value := "-:/stats" }

/-- A session whose URI path matches `statsEx`. -/
def sessionStats : Session :=
  { uri_path := "/stats" }

/-- Two states agreeing on the fields the stats plugin reads but differing
elsewhere. -/
def ctxA : State :=
  { location_processing := 3, location_accepted := 7, remote_addr := some "10.0.0.1" }

/-- See `ctxA`. -/
def ctxB : State :=
  { location_processing := 3, location_accepted := 7, upstream_address := "up:80" }

/-! ### Helper lemmas -/

theorem listIsPfx_trans : ∀ {q p v : List Char},
    listIsPfx q p = true → listIsPfx p v = true → listIsPfx q v = true
  | [], _, _, _, _ => rfl
  | c :: cs, p, v, h1, h2 => by
    match p, v with
    | [], _ => simp [listIsPfx] at h1
    | d :: ds, [] => simp [listIsPfx] at h2
    | d :: ds, e :: es =>
      simp only [listIsPfx, Bool.and_eq_true, decide_eq_true_eq] at h1 h2 ⊢
      exact ⟨h1.1.trans h2.1, listIsPfx_trans h1.2 h2.2⟩

theorem listIsPfx_head {c : Char} {cs v : List Char}
    (h : listIsPfx (c :: cs) v = true) : v.head? = some c := by
  match v with
  | [] => simp [listIsPfx] at h
  | d :: ds =>
    simp only [listIsPfx, Bool.and_eq_true, decide_eq_true_eq] at h
    simp [h.1]

theorem sw_trans {v p q : String} (h1 : strStartsWith v p = true)
    (h2 : strStartsWith p q = true) : strStartsWith v q = true :=
  listIsPfx_trans h2 h1

theorem sw_false_of_sw_false {v p q : String} (hpq : strStartsWith p q = true)
    (hv : strStartsWith v q = false) : strStartsWith v p = false := by
  cases h : strStartsWith v p with
  | false => rfl
  | true => rw [sw_trans h hpq] at hv; cases hv

theorem ne_of_sw_false {v t p : String} (hv : strStartsWith v p = false)
    (ht : strStartsWith t p = true) : v ≠ t := by
  intro h; rw [h, ht] at hv; cases hv

/-- Two strings starting with distinct characters exclude each other's
prefixes: if `v` starts with `p` and `p`, `q` begin with different
characters, `v` does not start with `q`. -/
theorem sw_head_exclusive {v p q : String}
    (h : strStartsWith v p = true)
    (hne : p.toList.head?.isSome = true ∧ q.toList.head?.isSome = true ∧
      p.toList.head? ≠ q.toList.head?) :
    strStartsWith v q = false := by
  obtain ⟨hp, hq, hpq⟩ := hne
  cases hv : strStartsWith v q with
  | false => rfl
  | true =>
    exfalso
    unfold strStartsWith at h hv
    match hp' : p.toList, hq' : q.toList with
    | [], _ => rw [hp'] at hp; simp at hp
    | _ :: _, [] => rw [hq'] at hq; simp at hq
    | c :: cs, d :: ds =>
      rw [hp'] at h hpq
      rw [hq'] at hv hpq
      have h1 := listIsPfx_head h
      have h2 := listIsPfx_head hv
      apply hpq
      simp only [List.head?_cons]
      rw [← h1]
      exact h2

theorem splitOnceList_eq_none {sep : Char} : ∀ {l : List Char},
    sep ∉ l → splitOnceList sep l = none
  | [], _ => rfl
  | c :: rest, h => by
    have hc : ¬ c = sep := fun hce => h (hce ▸ List.mem_cons_self c rest)
    have hrest : sep ∉ rest := fun hm => h (List.mem_cons_of_mem c hm)
    simp [splitOnceList, hc, splitOnceList_eq_none hrest]

theorem splitOnceList_eq_some {sep : Char} : ∀ {l a b : List Char},
    splitOnceList sep l = some (a, b) → l = a ++ sep :: b ∧ sep ∉ a
  | [], a, b, h => by simp [splitOnceList] at h
  | c :: rest, a, b, h => by
    by_cases hc : c = sep
    · rw [splitOnceList, if_pos hc] at h
      injection h with h'
      cases h'
      subst hc
      exact ⟨rfl, List.not_mem_nil c⟩
    · rw [splitOnceList, if_neg hc] at h
      cases hr : splitOnceList sep rest with
      | none => rw [hr] at h; simp at h
      | some p =>
        obtain ⟨p1, p2⟩ := p
        rw [hr] at h
        simp only [Option.map_some'] at h
        injection h with h'
        cases h'
        obtain ⟨hrl, hna⟩ := splitOnceList_eq_some hr
        refine ⟨by rw [List.cons_append, ← hrl], ?_⟩
        intro hm
        rcases List.mem_cons.mp hm with h1 | h2
        · exact hc h1.symm
        · exact hna h2

theorem validHeaderChar_of_visible {c : Char} (h : visibleAsciiChar c = true) :
    validHeaderChar c = true := by
  simp only [visibleAsciiChar, validHeaderChar, Bool.or_eq_true, Bool.and_eq_true,
    decide_eq_true_eq, bne_iff_ne, ne_eq] at h ⊢
  omega

theorem bfalse {b : Bool} (h : b = false) : ¬ (b = true) := by
  simp [h]

theorem ne_of_sw {v t p : String} (hv : strStartsWith v p = true)
    (ht : strStartsWith t p = false) : v ≠ t := by
  intro h
  rw [h] at hv
  rw [hv] at ht
  cases ht

theorem convert_header_value_scheme (session : Session) (sys : Sys) (ctx : State) :
    convert_header_value "$scheme" session sys ctx =
      (if ctx.tls_version.isSome then some "https" else some "http") := rfl

theorem convert_header_value_paxff (session : Session) (sys : Sys) (ctx : State) :
    convert_header_value "$proxy_add_x_forwarded_for" session sys ctx =
      (match ctx.remote_addr with
       | some remote_addr =>
         headerValueFromStr
           (match session.get_header "X-Forwarded-For" with
            | some existing => toStrOrDefault existing ++ ", " ++ remote_addr
            | none => remote_addr)
       | none => none) := rfl

theorem convert_header_value_http_pfx (value : String) (session : Session)
    (sys : Sys) (ctx : State) (h : strStartsWith value "$http_" = true) :
    convert_header_value value session sys ctx
      = session.get_header (strDrop value 6) := by
  unfold convert_header_value
  rw [if_neg (ne_of_sw h (by decide)), if_neg (ne_of_sw h (by decide)),
    if_neg (ne_of_sw h (by decide)), if_neg (ne_of_sw h (by decide)),
    if_neg (ne_of_sw h (by decide)), if_neg (ne_of_sw h (by decide)),
    if_neg (ne_of_sw h (by decide)), if_neg (ne_of_sw h (by decide)),
    if_neg (ne_of_sw h (by decide)), if_pos h]

theorem convert_header_value_env (value : String) (session : Session)
    (sys : Sys) (ctx : State) (h : strStartsWith value "$" = true)
    (hh : strStartsWith value "$http_" = false)
    (ht : ∀ t ∈ exactTags, value ≠ t) :
    convert_header_value value session sys ctx =
      (match sys.lookupEnv (strDrop value 1) with
       | some v => headerValueFromStr v
       | none => none) := by
  unfold convert_header_value
  rw [if_neg (ht _ (by decide)), if_neg (ht _ (by decide)),
    if_neg (ht _ (by decide)), if_neg (ht _ (by decide)),
    if_neg (ht _ (by decide)), if_neg (ht _ (by decide)),
    if_neg (ht _ (by decide)), if_neg (ht _ (by decide)),
    if_neg (ht _ (by decide)), if_neg (bfalse hh), if_pos h]

theorem convert_header_value_attr (value : String) (session : Session)
    (sys : Sys) (ctx : State) (h : strStartsWith value ":" = true) :
    convert_header_value value session sys ctx =
      (if ctx.append_value "" (strDrop value 1) ≠ "" then
        headerValueFromStr (ctx.append_value "" (strDrop value 1))
      else none) := by
  unfold convert_header_value
  rw [if_neg (ne_of_sw h (by decide)), if_neg (ne_of_sw h (by decide)),
    if_neg (ne_of_sw h (by decide)), if_neg (ne_of_sw h (by decide)),
    if_neg (ne_of_sw h (by decide)), if_neg (ne_of_sw h (by decide)),
    if_neg (ne_of_sw h (by decide)), if_neg (ne_of_sw h (by decide)),
    if_neg (ne_of_sw h (by decide)),
    if_neg (bfalse (sw_head_exclusive h (by decide))),
    if_neg (bfalse (sw_head_exclusive h (by decide))), if_pos h]

theorem convert_header_value_unmatched (value : String) (session : Session)
    (sys : Sys) (ctx : State) (h1 : strStartsWith value "$" = false)
    (h2 : strStartsWith value ":" = false) :
    convert_header_value value session sys ctx = none := by
  unfold convert_header_value
  rw [if_neg (ne_of_sw_false h1 (by decide)), if_neg (ne_of_sw_false h1 (by decide)),
    if_neg (ne_of_sw_false h1 (by decide)), if_neg (ne_of_sw_false h1 (by decide)),
    if_neg (ne_of_sw_false h1 (by decide)), if_neg (ne_of_sw_false h1 (by decide)),
    if_neg (ne_of_sw_false h1 (by decide)), if_neg (ne_of_sw_false h1 (by decide)),
    if_neg (ne_of_sw_false h1 (by decide)),
    if_neg (bfalse (sw_false_of_sw_false (by decide) h1)),
    if_neg (bfalse h1), if_neg (bfalse h2)]

theorem headerValueFromStr_eq_some {s : String}
    (h : s.toList.all validHeaderChar = true) : headerValueFromStr s = some s := by
  unfold headerValueFromStr
  rw [if_pos h]

theorem toStrOrDefault_of_visible {s : String}
    (h : s.toList.all visibleAsciiChar = true) : toStrOrDefault s = s := by
  unfold toStrOrDefault
  rw [if_pos h]

theorem all_valid_of_all_visible {s : String}
    (h : s.toList.all visibleAsciiChar = true) :
    s.toList.all validHeaderChar = true := by
  rw [List.all_eq_true] at h ⊢
  intro x hx
  exact validHeaderChar_of_visible (h x hx)

theorem all_valid_append {a b : String}
    (ha : a.toList.all validHeaderChar = true)
    (hb : b.toList.all validHeaderChar = true) :
    (a ++ b).toList.all validHeaderChar = true := by
  simp only [String.toList] at ha hb ⊢
  rw [String.data_append, List.all_append, ha, hb]
  rfl

theorem convert_header_eq (s k v : String) (hs : splitOnce s ':' = some (k, v)) :
    convert_header s =
      (match headerNameFromStr (trimStr k) with
       | none => .error (.invalidHeaderName (trimStr k))
       | some name =>
         match headerValueFromStr (trimStr v) with
         | none => .error (.invalidHeaderValue (trimStr v))
         | some hv => .ok (some (name, hv))) := by
  unfold convert_header
  rw [hs]

/-! ### Claim theorems -/

/-- C1 (counterexample): the claim says resolving the literal `"UUID"` (no
recognized tag form) yields `"UUID"` unchanged; the code instead yields
`none` — its own test asserts `value.is_some()` is `false` for `"UUID"`. -/
theorem c1_counterexample :
    convert_header_value "UUID" { } { } { } ≠ some "UUID" := by decide

/-- C1 (amended): for every directive value matching no recognized tag form
(it starts with neither `$` nor `:`), `convert_header_value` returns `none`
(the header is omitted); the literal value is not echoed back by resolution.
(Literals are instead materialised at configuration time by
`convert_header`/`convert_headers`.) -/
theorem c1_unmatched_is_none (value : String) (session : Session) (sys : Sys)
    (ctx : State) (h1 : strStartsWith value "$" = false)
    (h2 : strStartsWith value ":" = false) :
    convert_header_value value session sys ctx = none :=
  convert_header_value_unmatched value session sys ctx h1 h2

/-- C1 (witness): the amended claim at the concrete literal `"UUID"`. -/
theorem c1_witness :
    strStartsWith "UUID" "$" = false ∧ strStartsWith "UUID" ":" = false ∧
      convert_header_value "UUID" { } { } { } = none :=
  ⟨by decide, by decide,
    c1_unmatched_is_none "UUID" { } { } { } (by decide) (by decide)⟩

/-- C2: for every session and context, resolving `$scheme` yields
`some "https"` iff the context's TLS-version field is non-empty (`isSome`),
yields `some "http"` otherwise, and is never `none`. -/
theorem c2_scheme (session : Session) (sys : Sys) (ctx : State) :
    (convert_header_value "$scheme" session sys ctx = some "https" ↔
      ctx.tls_version.isSome = true)
    ∧ (ctx.tls_version.isSome = false →
        convert_header_value "$scheme" session sys ctx = some "http")
    ∧ (convert_header_value "$scheme" session sys ctx).isSome = true := by
  have hs := convert_header_value_scheme session sys ctx
  rw [hs]
  cases h : ctx.tls_version.isSome with
  | false => decide
  | true => decide

/-- C2 (witness): `$scheme` at a context with no TLS version and at one with
a TLS version. -/
theorem c2_witness :
    convert_header_value "$scheme" { } { } { } = some "http" :=
  (c2_scheme { } { } { }).2.1 (by decide)

/-- C7: resolution misses are never failures. The embedding of
`convert_header_value` is a total function into `Option String`, so it can
raise no error and cannot panic; this theorem states that each miss — an
absent inbound header for `$http_<name>`, an absent environment variable
for `$<name>`, an absent/empty context attribute for `:<name>`, and an
unmatched value — yields omission (`none`), never a default or placeholder
string. -/
theorem c7_resolution_misses (value : String) (session : Session) (sys : Sys)
    (ctx : State) :
    (strStartsWith value "$http_" = true →
      session.get_header (strDrop value 6) = none →
      convert_header_value value session sys ctx = none)
    ∧ (strStartsWith value "$" = true →
        strStartsWith value "$http_" = false →
        (∀ t ∈ exactTags, value ≠ t) →
        sys.lookupEnv (strDrop value 1) = none →
        convert_header_value value session sys ctx = none)
    ∧ (strStartsWith value ":" = true →
        ctx.append_value "" (strDrop value 1) = "" →
        convert_header_value value session sys ctx = none)
    ∧ (strStartsWith value "$" = false → strStartsWith value ":" = false →
        convert_header_value value session sys ctx = none) := by
  refine ⟨?_, ?_, ?_, ?_⟩
  · intro h habs
    rw [convert_header_value_http_pfx value session sys ctx h, habs]
  · intro h hh ht henv
    rw [convert_header_value_env value session sys ctx h hh ht, henv]
  · intro h hempty
    rw [convert_header_value_attr value session sys ctx h, hempty]
    simp
  · exact convert_header_value_unmatched value session sys ctx

/-- C7 (witness): each kind of miss at a concrete input. -/
theorem c7_witness :
    convert_header_value "$http_missing" { } { } { } = none
    ∧ convert_header_value "$MISSING_ENV_VAR" { } { } { } = none
    ∧ convert_header_value ":missing" { } { } { } = none
    ∧ convert_header_value "Some-Literal" { } { } { } = none :=
  ⟨(c7_resolution_misses "$http_missing" { } { } { }).1 (by decide) (by decide),
   (c7_resolution_misses "$MISSING_ENV_VAR" { } { } { }).2.1 (by decide)
     (by decide) (by decide) (by decide),
   (c7_resolution_misses ":missing" { } { } { }).2.2.1 (by decide) (by decide),
   (c7_resolution_misses "Some-Literal" { } { } { }).2.2.2 (by decide) (by decide)⟩

/-- C4: resolving `$proxy_add_x_forwarded_for` with a known remote address
(a well-formed address string: visible ASCII) appends the remote address to
the existing inbound `X-Forwarded-For` value as `"<existing>, <remote>"`;
with no existing header it yields exactly the remote address; with an
unknown remote address the header is omitted. -/
theorem c4_proxy_add_x_forwarded_for (session : Session) (sys : Sys)
    (ctx : State) (remote : String) (hr : ctx.remote_addr = some remote)
    (hrv : remote.toList.all visibleAsciiChar = true) :
    (∀ existing, session.get_header "X-Forwarded-For" = some existing →
        existing.toList.all visibleAsciiChar = true →
        convert_header_value "$proxy_add_x_forwarded_for" session sys ctx
          = some (existing ++ ", " ++ remote))
    ∧ (session.get_header "X-Forwarded-For" = none →
        convert_header_value "$proxy_add_x_forwarded_for" session sys ctx
          = some remote)
    ∧ (∀ ctx' : State, ctx'.remote_addr = none →
        convert_header_value "$proxy_add_x_forwarded_for" session sys ctx'
          = none) := by
  have hvalid : remote.toList.all validHeaderChar = true :=
    all_valid_of_all_visible hrv
  refine ⟨?_, ?_, ?_⟩
  · intro existing hex hexv
    rw [convert_header_value_paxff, hr, hex]
    show headerValueFromStr (toStrOrDefault existing ++ ", " ++ remote)
      = some (existing ++ ", " ++ remote)
    rw [toStrOrDefault_of_visible hexv]
    exact headerValueFromStr_eq_some
      (all_valid_append
        (all_valid_append (all_valid_of_all_visible hexv) (by decide)) hvalid)
  · intro hnone
    rw [convert_header_value_paxff, hr, hnone]
    show headerValueFromStr remote = some remote
    exact headerValueFromStr_eq_some hvalid
  · intro ctx' h'
    rw [convert_header_value_paxff, h']

/-- C4 (witness): the source test's inputs — existing header
`X-Forwarded-For: 1.1.1.1, 2.2.2.2` with remote `10.1.1.1`, no existing
header, and no remote address. -/
theorem c4_witness :
    convert_header_value "$proxy_add_x_forwarded_for" sessionEx { } stateEx
      = some "1.1.1.1, 2.2.2.2, 10.1.1.1"
    ∧ convert_header_value "$proxy_add_x_forwarded_for" { } { } stateEx
      = some "10.1.1.1"
    ∧ convert_header_value "$proxy_add_x_forwarded_for" sessionEx { } { }
      = none :=
  ⟨(c4_proxy_add_x_forwarded_for sessionEx { } stateEx "10.1.1.1" rfl
      (by decide)).1 "1.1.1.1, 2.2.2.2" (by decide) (by decide),
   (c4_proxy_add_x_forwarded_for { } { } stateEx "10.1.1.1" rfl
      (by decide)).2.1 (by decide),
   (c4_proxy_add_x_forwarded_for sessionEx { } stateEx "10.1.1.1" rfl
      (by decide)).2.2 { } rfl⟩

/-- C5: `convert_header` on a raw string without a colon returns `ok none`
(no error, no partial pair; the embedding is total, so no panic). On a raw
string with a colon it splits at the first colon (the decomposition
conjunct), trims both halves, returns the `(name, value)` pair when both
validate, and surfaces a configuration error carrying the offending part
otherwise. -/
theorem c5_convert_header (s : String) :
    ((':' ∈ s.toList → False) → convert_header s = .ok none)
    ∧ (∀ k v, splitOnce s ':' = some (k, v) →
        (s.toList = k.toList ++ ':' :: v.toList ∧ (':' ∈ k.toList → False))
        ∧ (headerNameFromStr (trimStr k) = none →
            convert_header s = .error (.invalidHeaderName (trimStr k)))
        ∧ (∀ name, headerNameFromStr (trimStr k) = some name →
            headerValueFromStr (trimStr v) = none →
            convert_header s = .error (.invalidHeaderValue (trimStr v)))
        ∧ (∀ name hv, headerNameFromStr (trimStr k) = some name →
            headerValueFromStr (trimStr v) = some hv →
            convert_header s = .ok (some (name, hv)))) := by
  constructor
  · intro h
    have hnone : splitOnce s ':' = none := by
      unfold splitOnce
      rw [splitOnceList_eq_none h]
      rfl
    unfold convert_header
    rw [hnone]
  · intro k v hsp
    have hd : splitOnceList ':' s.toList
        = some (k.toList, v.toList) := by
      unfold splitOnce at hsp
      cases hsl : splitOnceList ':' s.toList with
      | none => rw [hsl] at hsp; simp at hsp
      | some p =>
        obtain ⟨a, b⟩ := p
        rw [hsl] at hsp
        simp only [Option.map_some'] at hsp
        injection hsp with hsp'
        have ha : a.asString = k := congrArg Prod.fst hsp'
        have hb : b.asString = v := congrArg Prod.snd hsp'
        rw [← ha, ← hb, List.toList_asString, List.toList_asString]
    obtain ⟨hdec, hni⟩ := splitOnceList_eq_some hd
    refine ⟨⟨hdec, hni⟩, ?_, ?_, ?_⟩
    · intro hn
      rw [convert_header_eq s k v hsp]
      simp only [hn]
    · intro name hn hv'
      rw [convert_header_eq s k v hsp]
      simp only [hn, hv']
    · intro name hv' hn hv''
      rw [convert_header_eq s k v hsp]
      simp only [hn, hv'']

/-- C5 (witness): a colonless line, a well-formed directive (trimmed,
name lowercased) and a directive with an illegal name. -/
theorem c5_witness :
    convert_header "no colon here" = .ok none
    ∧ convert_header " X-Test : ok value " = .ok (some ("x-test", "ok value"))
    ∧ convert_header "b@d: v" = .error (.invalidHeaderName "b@d") :=
  ⟨(c5_convert_header "no colon here").1 (by decide),
   ((c5_convert_header " X-Test : ok value ").2 " X-Test " " ok value "
      (by decide)).2.2.2 "x-test" "ok value" (by decide) (by decide),
   ((c5_convert_header "b@d: v").2 "b@d" " v" (by decide)).2.1 (by decide)⟩

/-- C6: `convert_headers` applies `convert_header` to every element; when no
element raises a configuration error, the result is exactly the parsed pairs
of the non-malformed lines (the colonless, `ok none` lines are filtered out)
in input order. -/
theorem c6_convert_headers (hs : List String)
    (h : ∀ s ∈ hs, exceptIsOk (convert_header s) = true) :
    convert_headers hs
      = .ok (hs.filterMap (fun s => (exceptToOption (convert_header s)).bind id)) := by
  induction hs with
  | nil => rfl
  | cons a rest ih =>
    have ha := h a (List.mem_cons_self a rest)
    have hrest : ∀ s ∈ rest, exceptIsOk (convert_header s) = true :=
      fun s hs' => h s (List.mem_cons_of_mem a hs')
    cases hca : convert_header a with
    | error e => rw [hca] at ha; simp [exceptIsOk] at ha
    | ok o =>
      cases o with
      | none =>
        rw [List.filterMap_cons_none (by rw [hca]; rfl)]
        simp only [convert_headers, hca]
        exact ih hrest
      | some hh =>
        rw [List.filterMap_cons_some (by rw [hca]; rfl)]
        simp only [convert_headers, hca, ih hrest, Except.map]

/-- C6 (witness): a batch with one literal directive, one templated one and
one malformed (colonless) line; the malformed line is dropped and order is
kept. -/
theorem c6_witness :
    convert_headers
        ["Content-Type: application/octet-stream", "nocolon", "X-Server: $hostname"]
      = .ok [("content-type", "application/octet-stream"), ("x-server", "$hostname")] :=
  (c6_convert_headers
    ["Content-Type: application/octet-stream", "nocolon", "X-Server: $hostname"]
    (by decide)).trans (by rfl)

/-- C3 (counterexample): the claim says a `put` whose weight alone exceeds
the capacity reports the failure to the caller as an error result; at
capacity 10 and weight 20 the wrapper's `put` returns `Ok`, not an error
(`tiny.rs` unconditionally ends with `Ok(())`). -/
theorem c3_counterexample :
    (new_tiny_ufo_cache 10 2).cache.total_weight_limit < 20
    ∧ exceptIsOk
        (TinyUfoCache.put (new_tiny_ufo_cache 10 2) "key" { data := "value" } 20)
      = true := by decide

/-- C3 (amended): an item whose weight alone exceeds the configured total
weight capacity is rejected by the inner TinyUfo admission (the store is
left unchanged), but the wrapper's `put` still reports success (`ok`) to
the caller; the rejection is never surfaced as an error result. -/
theorem c3_put_oversize (c : TinyUfoCache) (key : String) (data : CacheObject)
    (weight : Nat) (h : c.cache.total_weight_limit < weight) :
    c.cache.put key data weight = c.cache
    ∧ TinyUfoCache.put c key data weight = .ok c := by
  have hinner : c.cache.put key data weight = c.cache := by
    unfold TinyUfo.put
    rw [if_pos h]
  refine ⟨hinner, ?_⟩
  unfold TinyUfoCache.put
  rw [hinner]

/-- C3 (witness): the amended claim at capacity 8 and weight 9. -/
theorem c3_witness :
    (new_tiny_ufo_cache 8 2).cache.total_weight_limit < 9
    ∧ TinyUfoCache.put (new_tiny_ufo_cache 8 2) "k2" { data := "z" } 9
      = .ok (new_tiny_ufo_cache 8 2) :=
  ⟨by decide,
   (c3_put_oversize (new_tiny_ufo_cache 8 2) "k2" { data := "z" } 9
      (by decide)).2⟩

/-- C8 (counterexample): the claim says the configuration error identifies
the invalid step; for a stats plugin configured at the `response` step the
error's category and message (rendered as the plugin `Error::Invalid`
display) nowhere contain the configured step's name `"response"` — the
message only names the allowed steps. -/
theorem c8_counterexample :
    Stats.tryFrom { step := some PluginStep.response, path := "/stats" }
      = .error statsInvalidError
    ∧ strContains (PluginError.render statsInvalidError)
        (PluginStep.response.confName) = false := by
  constructor
  · rfl
  · decide

/-- C8 (amended): constructing a `Stats` plugin fails iff its configured
step is neither `Request` nor `ProxyUpstream`, and the surfaced
configuration error identifies the plugin category (`stats`) and states the
allowed steps — but it does not name the invalid configured step. -/
theorem c8_step_validation (conf : PluginConf) :
    (exceptIsOk (Stats.tryFrom conf) = true ↔
      (get_step_conf conf = PluginStep.request
        ∨ get_step_conf conf = PluginStep.proxyUpstream))
    ∧ (∀ e, Stats.tryFrom conf = .error e →
        e.category = "stats"
        ∧ strContains (PluginError.render e) "stats" = true
        ∧ e.message = "Stats plugin should be executed at request or proxy upstream step") := by
  simp only [Stats.tryFrom]
  cases hstep : get_step_conf conf with
  | request =>
    rw [if_neg (by decide)]
    exact ⟨by simp [exceptIsOk], by intro e he; cases he⟩
  | proxyUpstream =>
    rw [if_neg (by decide)]
    exact ⟨by simp [exceptIsOk], by intro e he; cases he⟩
  | response =>
    rw [if_pos (by decide)]
    refine ⟨by simp [exceptIsOk], ?_⟩
    intro e he
    injection he with he'
    subst he'
    exact ⟨rfl, by decide, rfl⟩

/-- C8 (witness): the default (request-step) configuration is accepted; a
response-step configuration yields the category-identifying error. -/
theorem c8_witness :
    exceptIsOk (Stats.tryFrom { path := "/stats" }) = true
    ∧ (statsInvalidError.category = "stats"
       ∧ strContains (PluginError.render statsInvalidError) "stats" = true
       ∧ statsInvalidError.message
          = "Stats plugin should be executed at request or proxy upstream step") :=
  ⟨(c8_step_validation { path := "/stats" }).1.mpr (Or.inl rfl),
   (c8_step_validation { step := some PluginStep.response, path := "/stats" }).2
      statsInvalidError rfl⟩

/-- C9: invoking `Stats.handle_request` with a step different from the
plugin's configured step is a no-op: it returns `Ok(None)` immediately and
leaves the context unchanged, for every session, process snapshot and
context. -/
theorem c9_step_mismatch_noop (p : Stats) (step : PluginStep)
    (session : Session) (ps : ProcessState) (ctx : State)
    (h : step ≠ p.plugin_step) :
    Stats.handle_request p step session ps ctx = (.ok none, ctx) := by
  unfold Stats.handle_request
  rw [if_pos h]

/-- C9 (witness): a request-step plugin invoked at the response step, on a
session whose path would otherwise match. -/
theorem c9_witness :
    Stats.handle_request statsEx PluginStep.response sessionStats { } ctxA
      = (.ok none, ctxA) :=
  c9_step_mismatch_noop statsEx PluginStep.response sessionStats { } ctxA
    (by decide)

/-- C10: `Stats.handle_request` never mutates the request context (the
returned state equals the input state in every branch), and its result
depends on the context only through the `location_processing` and
`location_accepted` fields it reads. -/
theorem c10_ctx_frame (p : Stats) (step : PluginStep) (session : Session)
    (ps : ProcessState) (ctx ctx' : State)
    (h1 : ctx.location_processing = ctx'.location_processing)
    (h2 : ctx.location_accepted = ctx'.location_accepted) :
    (Stats.handle_request p step session ps ctx).2 = ctx
    ∧ (Stats.handle_request p step session ps ctx).1
      = (Stats.handle_request p step session ps ctx').1 := by
  by_cases hstep : step ≠ p.plugin_step
  · simp only [Stats.handle_request, if_pos hstep]
    exact ⟨trivial, trivial⟩
  · by_cases hpath : session.uri_path = p.path
    · simp only [Stats.handle_request, if_neg hstep, if_pos hpath, h1, h2]
      exact ⟨trivial, trivial⟩
    · simp only [Stats.handle_request, if_neg hstep, if_neg hpath]
      exact ⟨trivial, trivial⟩

/-- C10 (witness): the matching-step, matching-path branch (the one that
builds a response from the context's two counters) at two contexts agreeing
on those counters but differing elsewhere. -/
theorem c10_witness :
    (Stats.handle_request statsEx PluginStep.request sessionStats { } ctxA).2 = ctxA
    ∧ (Stats.handle_request statsEx PluginStep.request sessionStats { } ctxA).1
      = (Stats.handle_request statsEx PluginStep.request sessionStats { } ctxB).1 :=
  c10_ctx_frame statsEx PluginStep.request sessionStats { } ctxA ctxB rfl rfl

end Pingap
